import Mathlib

/-!
Shallow embedding of the control plane of `wickedd.c` (the wicked daemon):
the connection acceptor `wicked_accept_connection`, the request handler
`wicked_process_network_restcall`, and the event-to-policy pipeline
`wicked_interface_event`.  Each function is embedded as a pure function that
returns the trace of its observable steps (log calls, handler invocations,
document construction, policy application, path construction, frees),
parametrised over the results of the external wicked-library collaborators.
-/

namespace Wicked

/-- A node of the XML document model (`xml_node_t`): element name, attribute
list and child nodes, as manipulated by `xml_node_new`, `xml_node_add_attr`
and `xml_node_replace_child` in `wickedd.c`. -/
inductive XmlNode where
  | node (tag : String) (attrs : List (String × String)) (children : List XmlNode)

/-- The element name of a node. -/
def XmlNode.tag : XmlNode → String
  | .node t _ _ => t

/-- The attribute list of a node. -/
def XmlNode.attrs : XmlNode → List (String × String)
  | .node _ a _ => a

/-- The child list of a node. -/
def XmlNode.children : XmlNode → List XmlNode
  | .node _ _ c => c

/-- A policy (`ni_policy_t`): a predicate on event documents plus the name of
its action/transform.  `wickedd.c` itself only reads `policy->action`; the
predicate is what the external matcher evaluates against the event document. -/
structure Policy where
  predicate : XmlNode → Bool
  action : String

/-- The `evtype` table of `wicked_interface_event` (wickedd.c:191-198): an
array of `__NI_EVENT_MAX` entries holding the display names of the six known
event kinds; `none` stands for a NULL entry. -/
def evtypeTable : List (Option String) :=
  [some "link-create", some "link-delete", some "link-up",
   some "link-down", some "network-up", some "network-down"]

/-- Modelled from the spec: the numeric values of the `ni_event_t` enumeration
(`NI_EVENT_LINK_CREATE` … `__NI_EVENT_MAX`) come from a wicked library header
that is not part of this source file; the spec's closed kind table lists
exactly six kinds, so they are embedded as indices 0–5 with
`__NI_EVENT_MAX = 6`. -/
def NI_EVENT_MAX : Nat := 6

/-- Lookup of `evtype[event]`; indices past the table yield `none` (the C code
never indexes out of bounds because of the `event >= __NI_EVENT_MAX` guard). -/
def evtype (event : Nat) : Option String :=
  evtypeTable.getD event none

/-- Execution context of an observable step: the daemon process itself or a
forked worker child. -/
inductive ExecCtx where
  | daemon
  | worker
deriving DecidableEq

/-- Observable steps of `wicked_accept_connection`. -/
inductive AcceptStep where
  | logError (msg : String)
  | logDebug (msg : String)
  | invokeHandler (ctx : ExecCtx)
  | exitProcess (ctx : ExecCtx) (code : Nat)
deriving DecidableEq

/-- Shallow embedding of `wicked_accept_connection` (wickedd.c:132-160).
`nofork` is the global `opt_nofork` flag; `forkFails` models `fork()`
returning a negative value.  On a successful fork the worker child runs the
request handler and calls `exit(0)`, while the parent falls through to
`return -1`.  Returns the trace of observable steps paired with the
function's return value (as seen in the daemon's context). -/
def wicked_accept_connection (uid : Nat) (nofork : Bool) (forkFails : Bool) :
    List AcceptStep × Int :=
  if uid ≠ 0 then
    ([.logError "refusing attempted connection"], -1)
  else if nofork then
    ([.logDebug "accepted connection", .invokeHandler .daemon], -1)
  else if forkFails then
    ([.logDebug "accepted connection", .logError "unable to fork worker child"], -1)
  else
    ([.logDebug "accepted connection", .invokeHandler .worker, .exitProcess .worker 0], -1)

/-- One incoming connection as the acceptor sees it: the caller's uid together
with whether the `fork()` call would fail while handling it. -/
structure Conn where
  uid : Nat
  forkFails : Bool

/-- The daemon's accept loop over a stream of incoming connections: the main
loop (wickedd.c:120-123) hands each ready connection to
`wicked_accept_connection`, which keeps no state across calls. -/
def serveConnections (nofork : Bool) : List Conn → List (List AcceptStep × Int)
  | [] => []
  | c :: rest =>
      wicked_accept_connection c.uid nofork c.forkFails :: serveConnections nofork rest

/-- Observable steps of `wicked_process_network_restcall`. -/
inductive RestcallStep where
  | initRequest
  | parseStream
  | dispatchDirect
  | writeResponse (status : Int)
  | destroyRequest
deriving DecidableEq

/-- Shallow embedding of `wicked_process_network_restcall` (wickedd.c:162-180).
`parseResult` is the value the external `ni_wicked_request_parse` returns and
`dispatchResult` the value `ni_wicked_call_direct` would return; the response
is printed with the final `rv`. -/
def wicked_process_network_restcall (parseResult dispatchResult : Int) :
    List RestcallStep :=
  [.initRequest, .parseStream] ++
    (if 0 ≤ parseResult then
      [.dispatchDirect, .writeResponse dispatchResult]
     else
      [.writeResponse parseResult]) ++
    [.destroyRequest]

/-- Whether a restcall step is a response write. -/
def RestcallStep.isWrite : RestcallStep → Bool
  | .writeResponse _ => true
  | _ => false

/-- Observable steps of `wicked_interface_event`. -/
inductive EventStep where
  | logDebugEvent (ifname ty : String)
  | buildEventNode (ty : String)
  | serializeInterface
  | attachChild
  | matchPolicies
  | logDebugMatched (action : String)
  | applyPolicy (action : String)
  | buildRestPath (path : String)
  | freeEventNode
deriving DecidableEq

/-- Whether an event step is a policy application (`ni_policy_apply` call). -/
def EventStep.isApply : EventStep → Bool
  | .applyPolicy _ => true
  | _ => false

/-- Whether an event step constructs the REST target path. -/
def EventStep.isRestPath : EventStep → Bool
  | .buildRestPath _ => true
  | _ => false

/-- Modelled from the spec: `ni_policy_match_event` lives in the external
policy library, not in `wickedd.c`; the spec defines it as returning the
first policy in store order whose predicate accepts the event document, or
none. -/
def ni_policy_match_event (policies : List Policy) (doc : XmlNode) : Option Policy :=
  policies.find? (fun p => p.predicate doc)

/-- The event document built by `wicked_interface_event` (wickedd.c:208-215):
`xml_node_new("event", NULL)`, attribute `type = evtype[event]`, with the
serialized interface attached as its child by `xml_node_replace_child`. -/
def eventNode (ty : String) (ifnode : XmlNode) : XmlNode :=
  .node "event" [("type", ty)] [ifnode]

/-- The derived REST target path (wickedd.c:231-233):
`snprintf(restpath, sizeof(restpath), "/system/interface/%s", ifp->name)`
with a 256-byte buffer writes at most 255 characters plus the terminator. -/
def restpath (ifname : String) : String :=
  ⟨("/system/interface/" ++ ifname).data.take 255⟩

/-- Shallow embedding of `wicked_interface_event` (wickedd.c:188-241).
The external collaborators are parameters: `serialized` is the result of
`ni_syntax_xml_from_interface` (`none` for a NULL return), `policies` is the
store handed to `ni_policy_match_event`, and `applyResult` gives the return
value of `ni_policy_apply`.  Returns the trace of observable steps. -/
def wicked_interface_event (ifname : String) (event : Nat)
    (serialized : Option XmlNode) (policies : List Policy)
    (applyResult : Policy → XmlNode → Int) : List EventStep :=
  if NI_EVENT_MAX ≤ event ∨ evtype event = none then
    []
  else
    let ty := (evtype event).getD ""
    let steps := [EventStep.logDebugEvent ifname ty, .buildEventNode ty, .serializeInterface]
    match serialized with
    | none => steps ++ [.freeEventNode]
    | some ifnode =>
      let steps := steps ++ [EventStep.attachChild, .matchPolicies]
      match ni_policy_match_event policies (eventNode ty ifnode) with
      | none => steps ++ [.freeEventNode]
      | some policy =>
        let steps := steps ++ [EventStep.logDebugMatched policy.action,
                               .applyPolicy policy.action]
        if applyResult policy ifnode < 0 then
          steps ++ [.freeEventNode]
        else
          steps ++ [.buildRestPath (restpath ifname), .freeEventNode]

/-- C1: for every incoming connection whose caller uid is not 0, the acceptor
logs the refusal and returns the close instruction `-1`, and the request
handler is never invoked, neither inline nor in a forked worker. -/
theorem accept_rejects_nonroot (uid : Nat) (nofork forkFails : Bool)
    (h : uid ≠ 0) :
    (wicked_accept_connection uid nofork forkFails).1 =
      [.logError "refusing attempted connection"] ∧
    (wicked_accept_connection uid nofork forkFails).2 = -1 ∧
    ∀ ctx, AcceptStep.invokeHandler ctx ∉ (wicked_accept_connection uid nofork forkFails).1 := by
  simp [wicked_accept_connection, h]

/-- C1 witness: a connection from uid 1000 in isolated mode. -/
theorem accept_rejects_nonroot_witness :
    (1000 : Nat) ≠ 0 ∧
    ((wicked_accept_connection 1000 false false).1 =
      [.logError "refusing attempted connection"] ∧
     (wicked_accept_connection 1000 false false).2 = -1 ∧
     ∀ ctx, AcceptStep.invokeHandler ctx ∉ (wicked_accept_connection 1000 false false).1) :=
  ⟨by decide, accept_rejects_nonroot 1000 false false (by decide)⟩

/-- C2: for every accepted connection the request handler writes exactly one
response: it initializes the request first, parses, dispatches to the
direct-call entry point exactly when parsing succeeded (`rv >= 0`), writes
one response whose status is the dispatch result on success and the parse
failure code otherwise, and destroys the request last. -/
theorem restcall_exactly_one_response (parseResult dispatchResult : Int) :
    (wicked_process_network_restcall parseResult dispatchResult).countP
        RestcallStep.isWrite = 1 ∧
    (wicked_process_network_restcall parseResult dispatchResult).head? =
        some .initRequest ∧
    RestcallStep.parseStream ∈ wicked_process_network_restcall parseResult dispatchResult ∧
    (RestcallStep.dispatchDirect ∈ wicked_process_network_restcall parseResult dispatchResult
        ↔ 0 ≤ parseResult) ∧
    RestcallStep.writeResponse (if 0 ≤ parseResult then dispatchResult else parseResult) ∈
        wicked_process_network_restcall parseResult dispatchResult ∧
    (wicked_process_network_restcall parseResult dispatchResult).getLast? =
        some .destroyRequest := by
  by_cases h : 0 ≤ parseResult <;>
    simp [wicked_process_network_restcall, h, RestcallStep.isWrite, List.countP_cons]

/-- C8: on every path through the acceptor — rejection of a non-root caller,
inline handling, successful worker spawn, failed worker spawn — the return
value is the close instruction `-1`. -/
theorem accept_always_returns_close (uid : Nat) (nofork forkFails : Bool) :
    (wicked_accept_connection uid nofork forkFails).2 = -1 := by
  by_cases h : uid = 0 <;> cases nofork <;> cases forkFails <;>
    simp [wicked_accept_connection, h]

/-- C7: if spawning the isolated worker fails, the acceptor logs the error and
rejects the connection with the close instruction; the daemon context neither
invokes the handler nor exits, and subsequent connections in the accept loop
are served exactly as they would be otherwise. -/
theorem accept_fork_failure (c : Conn) (rest : List Conn)
    (h1 : c.uid = 0) (h2 : c.forkFails = true) :
    AcceptStep.logError "unable to fork worker child" ∈
      (wicked_accept_connection c.uid false c.forkFails).1 ∧
    (wicked_accept_connection c.uid false c.forkFails).2 = -1 ∧
    (∀ ctx, AcceptStep.invokeHandler ctx ∉
      (wicked_accept_connection c.uid false c.forkFails).1) ∧
    (∀ code, AcceptStep.exitProcess .daemon code ∉
      (wicked_accept_connection c.uid false c.forkFails).1) ∧
    serveConnections false (c :: rest) =
      wicked_accept_connection c.uid false c.forkFails :: serveConnections false rest := by
  refine ⟨?_, ?_, ?_, ?_, rfl⟩ <;> simp [wicked_accept_connection, h1, h2]

/-- C7 witness: a root connection whose fork fails, followed by another
connection. -/
theorem accept_fork_failure_witness :
    (Conn.mk 0 true).uid = 0 ∧ (Conn.mk 0 true).forkFails = true ∧
    (AcceptStep.logError "unable to fork worker child" ∈
      (wicked_accept_connection (Conn.mk 0 true).uid false (Conn.mk 0 true).forkFails).1 ∧
     (wicked_accept_connection (Conn.mk 0 true).uid false (Conn.mk 0 true).forkFails).2 = -1 ∧
     (∀ ctx, AcceptStep.invokeHandler ctx ∉
       (wicked_accept_connection (Conn.mk 0 true).uid false (Conn.mk 0 true).forkFails).1) ∧
     (∀ code, AcceptStep.exitProcess .daemon code ∉
       (wicked_accept_connection (Conn.mk 0 true).uid false (Conn.mk 0 true).forkFails).1) ∧
     serveConnections false (Conn.mk 0 true :: [Conn.mk 0 false]) =
       wicked_accept_connection (Conn.mk 0 true).uid false (Conn.mk 0 true).forkFails ::
         serveConnections false [Conn.mk 0 false]) :=
  ⟨rfl, rfl, accept_fork_failure (Conn.mk 0 true) [Conn.mk 0 false] rfl rfl⟩

/-- Event kinds at or past `__NI_EVENT_MAX` have no `evtype` entry. -/
theorem evtype_none_of_le {event : Nat} (h : NI_EVENT_MAX ≤ event) :
    evtype event = none := by
  match event, h with
  | n + 6, _ => simp [evtype, evtypeTable, List.getD]

/-- A kind with an `evtype` entry lies below `__NI_EVENT_MAX`. -/
theorem evtype_lt_of_some {event : Nat} {ty : String} (h : evtype event = some ty) :
    event < NI_EVENT_MAX := by
  by_contra hc
  rw [evtype_none_of_le (Nat.le_of_not_lt hc)] at h
  exact Option.noConfusion h

/-- C4: a kernel event whose kind is outside the known set is discarded
silently: the handler returns with an empty trace, so no event document node
is built, no interface snapshot is serialized, and no policy is evaluated. -/
theorem event_filter_unknown (ifname : String) (event : Nat)
    (serialized : Option XmlNode) (policies : List Policy)
    (applyResult : Policy → XmlNode → Int)
    (h : NI_EVENT_MAX ≤ event ∨ evtype event = none) :
    wicked_interface_event ifname event serialized policies applyResult = [] ∧
    (∀ ty, EventStep.buildEventNode ty ∉
      wicked_interface_event ifname event serialized policies applyResult) ∧
    EventStep.serializeInterface ∉
      wicked_interface_event ifname event serialized policies applyResult ∧
    EventStep.matchPolicies ∉
      wicked_interface_event ifname event serialized policies applyResult := by
  have h0 : wicked_interface_event ifname event serialized policies applyResult = [] := by
    unfold wicked_interface_event
    rw [if_pos h]
  simp [h0]

/-- C4 witness: an event of kind 6, one past the known table. -/
theorem event_filter_unknown_witness :
    (NI_EVENT_MAX ≤ 6 ∨ evtype 6 = none) ∧
    (wicked_interface_event "eth0" 6 none [] (fun _ _ => 0) = [] ∧
     (∀ ty, EventStep.buildEventNode ty ∉
       wicked_interface_event "eth0" 6 none [] (fun _ _ => 0)) ∧
     EventStep.serializeInterface ∉
       wicked_interface_event "eth0" 6 none [] (fun _ _ => 0) ∧
     EventStep.matchPolicies ∉
       wicked_interface_event "eth0" 6 none [] (fun _ _ => 0)) :=
  ⟨Or.inl (by decide),
   event_filter_unknown "eth0" 6 none [] (fun _ _ => 0) (Or.inl (by decide))⟩

/-- C9: for every kernel event with a known kind, the pipeline builds an event
document node tagged `event` with attribute `type` set to the kind's display
name, and the display names come from the closed six-entry table
link-create, link-delete, link-up, link-down, network-up, network-down. -/
theorem event_doc_type_attr (ifname : String) (event : Nat)
    (serialized : Option XmlNode) (policies : List Policy)
    (applyResult : Policy → XmlNode → Int) (ty : String)
    (h : evtype event = some ty) :
    EventStep.buildEventNode ty ∈
      wicked_interface_event ifname event serialized policies applyResult ∧
    (∀ ifnode, (eventNode ty ifnode).tag = "event" ∧
               (eventNode ty ifnode).attrs = [("type", ty)]) ∧
    evtypeTable = [some "link-create", some "link-delete", some "link-up",
                   some "link-down", some "network-up", some "network-down"] ∧
    ty ∈ ["link-create", "link-delete", "link-up",
          "link-down", "network-up", "network-down"] := by
  have hlt : event < NI_EVENT_MAX := evtype_lt_of_some h
  have hcond : ¬ (NI_EVENT_MAX ≤ event ∨ evtype event = none) := by
    push_neg
    exact ⟨hlt, by simp [h]⟩
  refine ⟨?_, fun ifnode => ⟨rfl, rfl⟩, rfl, ?_⟩
  · unfold wicked_interface_event
    rw [if_neg hcond]
    simp only [h, Option.getD_some]
    cases serialized with
    | none => simp
    | some ifnode =>
      cases hm : ni_policy_match_event policies (eventNode ty ifnode) with
      | none => simp [hm]
      | some p =>
        by_cases ha : applyResult p ifnode < 0 <;> simp [hm, ha]
  · have h6 : event < 6 := hlt
    interval_cases event <;> obtain rfl : _ = ty := Option.some.inj h <;> decide

/-- C9 witness: a link-down event (kind 3). -/
theorem event_doc_type_attr_witness :
    evtype 3 = some "link-down" ∧
    (EventStep.buildEventNode "link-down" ∈
      wicked_interface_event "eth0" 3 none [] (fun _ _ => 0) ∧
     (∀ ifnode, (eventNode "link-down" ifnode).tag = "event" ∧
                (eventNode "link-down" ifnode).attrs = [("type", "link-down")]) ∧
     evtypeTable = [some "link-create", some "link-delete", some "link-up",
                    some "link-down", some "network-up", some "network-down"] ∧
     "link-down" ∈ ["link-create", "link-delete", "link-up",
                    "link-down", "network-up", "network-down"]) :=
  ⟨by decide,
   event_doc_type_attr "eth0" 3 none [] (fun _ _ => 0) "link-down" (by decide)⟩

/-- For a known event kind the pipeline trace unfolds to the case analysis on
the serialization, match and apply outcomes. -/
theorem event_trace_known (ifname : String) (event : Nat)
    (serialized : Option XmlNode) (policies : List Policy)
    (applyResult : Policy → XmlNode → Int) (ty : String)
    (hty : evtype event = some ty) :
    wicked_interface_event ifname event serialized policies applyResult =
      (let steps := [EventStep.logDebugEvent ifname ty, .buildEventNode ty,
                     .serializeInterface]
       match serialized with
       | none => steps ++ [.freeEventNode]
       | some ifnode =>
         let steps := steps ++ [EventStep.attachChild, .matchPolicies]
         match ni_policy_match_event policies (eventNode ty ifnode) with
         | none => steps ++ [.freeEventNode]
         | some policy =>
           let steps := steps ++ [EventStep.logDebugMatched policy.action,
                                  .applyPolicy policy.action]
           if applyResult policy ifnode < 0 then
             steps ++ [.freeEventNode]
           else
             steps ++ [.buildRestPath (restpath ifname), .freeEventNode]) := by
  have hcond : ¬ (NI_EVENT_MAX ≤ event ∨ evtype event = none) := by
    push_neg
    exact ⟨evtype_lt_of_some hty, by simp [hty]⟩
  unfold wicked_interface_event
  rw [if_neg hcond]
  simp only [hty, Option.getD_some]

/-- Splitting lemma for the first-match search: when the search returns an
element, the list splits into a prefix of non-matching elements, the found
element, and a tail. -/
theorem find_eq_some_split {α : Type} (p : α → Bool) :
    ∀ (l : List α) (a : α), l.find? p = some a →
      ∃ l1 l2, l = l1 ++ a :: l2 ∧ p a = true ∧ ∀ x ∈ l1, p x = false := by
  intro l
  induction l with
  | nil => intro a h; simp [List.find?] at h
  | cons b l ih =>
    intro a h
    by_cases hb : p b = true
    · rw [List.find?_cons_of_pos _ hb] at h
      obtain rfl : b = a := Option.some.inj h
      exact ⟨[], l, rfl, hb, by simp⟩
    · rw [List.find?_cons_of_neg _ (by simpa using hb)] at h
      obtain ⟨l1, l2, rfl, hpa, hl1⟩ := ih a h
      refine ⟨b :: l1, l2, rfl, hpa, ?_⟩
      intro x hx
      rcases List.mem_cons.mp hx with rfl | hx
      · simpa using hb
      · exact hl1 x hx

/-- C3: the pipeline applies at most one policy per event, and whenever a
policy action is applied it belongs to the first policy in store order whose
predicate accepts the event document: every earlier policy in the store
rejects the document. -/
theorem event_at_most_one_policy (ifname : String) (event : Nat)
    (serialized : Option XmlNode) (policies : List Policy)
    (applyResult : Policy → XmlNode → Int) :
    (wicked_interface_event ifname event serialized policies applyResult).countP
        EventStep.isApply ≤ 1 ∧
    (∀ a, EventStep.applyPolicy a ∈
        wicked_interface_event ifname event serialized policies applyResult →
      ∃ ty ifnode p l1 l2,
        evtype event = some ty ∧ serialized = some ifnode ∧
        policies = l1 ++ p :: l2 ∧
        p.predicate (eventNode ty ifnode) = true ∧
        (∀ q ∈ l1, q.predicate (eventNode ty ifnode) = false) ∧
        a = p.action) := by
  by_cases hcond : NI_EVENT_MAX ≤ event ∨ evtype event = none
  · have h0 : wicked_interface_event ifname event serialized policies applyResult = [] := by
      unfold wicked_interface_event
      rw [if_pos hcond]
    simp [h0]
  · obtain ⟨ty, hty⟩ : ∃ ty, evtype event = some ty := by
      rcases hev : evtype event with _ | ty
      · exact absurd (Or.inr hev) hcond
      · exact ⟨ty, rfl⟩
    have hunf : wicked_interface_event ifname event serialized policies applyResult =
        (let steps := [EventStep.logDebugEvent ifname ty, .buildEventNode ty,
                       .serializeInterface]
         match serialized with
         | none => steps ++ [.freeEventNode]
         | some ifnode =>
           let steps := steps ++ [EventStep.attachChild, .matchPolicies]
           match ni_policy_match_event policies (eventNode ty ifnode) with
           | none => steps ++ [.freeEventNode]
           | some policy =>
             let steps := steps ++ [EventStep.logDebugMatched policy.action,
                                    .applyPolicy policy.action]
             if applyResult policy ifnode < 0 then
               steps ++ [.freeEventNode]
             else
               steps ++ [.buildRestPath (restpath ifname), .freeEventNode]) := by
      unfold wicked_interface_event
      rw [if_neg hcond]
      simp only [hty, Option.getD_some]
    rw [hunf]
    cases serialized with
    | none => simp [EventStep.isApply]
    | some ifnode =>
      cases hm : ni_policy_match_event policies (eventNode ty ifnode) with
      | none => simp [hm, EventStep.isApply]
      | some p =>
        have hm2 : policies.find? (fun q => q.predicate (eventNode ty ifnode)) = some p := hm
        obtain ⟨l1, l2, hsplit, hpa, hl1⟩ :=
          find_eq_some_split (fun q => q.predicate (eventNode ty ifnode)) policies p hm2
        by_cases ha : applyResult p ifnode < 0 <;>
          simp only [hm, ha, if_true, if_false, ite_true, ite_false] <;>
          refine ⟨by simp [EventStep.isApply, List.countP_cons], ?_⟩ <;>
          intro a ha2 <;>
          ( have ha3 : a = p.action := by simpa using ha2
            exact ⟨ty, ifnode, p, l1, l2, hty, rfl, hsplit, hpa,
              fun q hq => hl1 q hq, ha3⟩ )

/-- C3 witness: a link-down event against a three-policy store whose second
policy is the first match; its action is the one applied. -/
theorem event_at_most_one_policy_witness :
    EventStep.applyPolicy "accept" ∈
      wicked_interface_event "eth0" 3 (some (XmlNode.node "interface" [] []))
        [⟨fun _ => false, "skip"⟩, ⟨fun _ => true, "accept"⟩, ⟨fun _ => true, "other"⟩]
        (fun _ _ => 0) ∧
    (wicked_interface_event "eth0" 3 (some (XmlNode.node "interface" [] []))
        [⟨fun _ => false, "skip"⟩, ⟨fun _ => true, "accept"⟩, ⟨fun _ => true, "other"⟩]
        (fun _ _ => 0)).countP EventStep.isApply ≤ 1 ∧
    (∀ a, EventStep.applyPolicy a ∈
        wicked_interface_event "eth0" 3 (some (XmlNode.node "interface" [] []))
          [⟨fun _ => false, "skip"⟩, ⟨fun _ => true, "accept"⟩, ⟨fun _ => true, "other"⟩]
          (fun _ _ => 0) →
      ∃ ty ifnode p l1 l2,
        evtype 3 = some ty ∧
        (some (XmlNode.node "interface" [] []) : Option XmlNode) = some ifnode ∧
        ([⟨fun _ => false, "skip"⟩, ⟨fun _ => true, "accept"⟩,
          ⟨fun _ => true, "other"⟩] : List Policy) = l1 ++ p :: l2 ∧
        p.predicate (eventNode ty ifnode) = true ∧
        (∀ q ∈ l1, q.predicate (eventNode ty ifnode) = false) ∧
        a = p.action) :=
  ⟨by decide,
   event_at_most_one_policy "eth0" 3 (some (XmlNode.node "interface" [] []))
     [⟨fun _ => false, "skip"⟩, ⟨fun _ => true, "accept"⟩, ⟨fun _ => true, "other"⟩]
     (fun _ _ => 0)⟩

/-- C5: whenever the pipeline abandons an event — the interface serialization
yields nothing, or no policy matches the event document, or the matched
policy's transform reports failure — the trace ends with the release of the
event node and contains no REST-path construction, so no dispatch path is
forwarded. -/
theorem event_abandon_paths (ifname : String) (event : Nat)
    (serialized : Option XmlNode) (policies : List Policy)
    (applyResult : Policy → XmlNode → Int) (ty : String)
    (hty : evtype event = some ty)
    (habandon : serialized = none
      ∨ (∃ ifnode, serialized = some ifnode ∧
          ni_policy_match_event policies (eventNode ty ifnode) = none)
      ∨ (∃ ifnode p, serialized = some ifnode ∧
          ni_policy_match_event policies (eventNode ty ifnode) = some p ∧
          applyResult p ifnode < 0)) :
    (wicked_interface_event ifname event serialized policies applyResult).getLast? =
      some .freeEventNode ∧
    ∀ s ∈ wicked_interface_event ifname event serialized policies applyResult,
      EventStep.isRestPath s = false := by
  rcases habandon with rfl | ⟨ifnode, rfl, hm⟩ | ⟨ifnode, p, rfl, hm, ha⟩
  · rw [event_trace_known ifname event none policies applyResult ty hty]
    exact ⟨rfl, by simp [List.forall_mem_cons, EventStep.isRestPath]⟩
  · rw [event_trace_known ifname event (some ifnode) policies applyResult ty hty]
    refine ⟨?_, by simp [hm, List.forall_mem_cons, EventStep.isRestPath]⟩
    simp only [hm]
    rfl
  · rw [event_trace_known ifname event (some ifnode) policies applyResult ty hty]
    refine ⟨?_, by simp [hm, ha, List.forall_mem_cons, EventStep.isRestPath]⟩
    simp only [hm, if_pos ha]
    rfl

/-- C5 witness: a link-down event whose interface serialization yields
nothing. -/
theorem event_abandon_paths_witness :
    evtype 3 = some "link-down" ∧
    ((wicked_interface_event "eth0" 3 none [] (fun _ _ => 0)).getLast? =
       some .freeEventNode ∧
     ∀ s ∈ wicked_interface_event "eth0" 3 none [] (fun _ _ => 0),
       EventStep.isRestPath s = false) :=
  ⟨by decide,
   event_abandon_paths "eth0" 3 none [] (fun _ _ => 0) "link-down"
     (by decide) (Or.inl rfl)⟩

/-- A 238-character interface name, one character past what fits untruncated
into the 256-byte REST path buffer after the 18-character prefix. -/
def longName : String := ⟨List.replicate 238 'a'⟩

set_option maxRecDepth 10000 in
/-- C6 counterexample: on a matched-and-applied link-up event for a
238-character interface name, the pipeline constructs a REST target path that
is not `/system/interface/<interface-name>` — the path is truncated. -/
theorem restpath_exact_counterexample :
    EventStep.buildRestPath (restpath longName) ∈
      wicked_interface_event longName 2 (some (XmlNode.node "interface" [] []))
        [⟨fun _ => true, "accept"⟩] (fun _ _ => 0) ∧
    restpath longName ≠ "/system/interface/" ++ longName := by
  constructor
  · decide
  · decide

/-- C6 amended: for every matched-and-applied event whose interface name has
at most 237 characters, the constructed target address is exactly
`/system/interface/<interface-name>` (longer names are truncated to the
path's first 255 characters). -/
theorem restpath_exact_short_names (ifname : String) (event : Nat)
    (serialized : Option XmlNode) (policies : List Policy)
    (applyResult : Policy → XmlNode → Int)
    (hlen : ifname.length ≤ 237) :
    ∀ p, EventStep.buildRestPath p ∈
        wicked_interface_event ifname event serialized policies applyResult →
      p = "/system/interface/" ++ ifname := by
  intro p hp
  have hfull : restpath ifname = "/system/interface/" ++ ifname := by
    have h18 : ("/system/interface/" ++ ifname).data.length ≤ 255 := by
      rw [String.data_append, List.length_append]
      have h2 : ifname.data.length ≤ 237 := hlen
      have h3 : ("/system/interface/" : String).data.length = 18 := rfl
      omega
    show String.mk (("/system/interface/" ++ ifname).data.take 255) = _
    rw [List.take_of_length_le h18]
  by_cases hcond : NI_EVENT_MAX ≤ event ∨ evtype event = none
  · have h0 : wicked_interface_event ifname event serialized policies applyResult = [] := by
      unfold wicked_interface_event
      rw [if_pos hcond]
    rw [h0] at hp
    simp at hp
  · obtain ⟨ty, hty⟩ : ∃ ty, evtype event = some ty := by
      rcases hev : evtype event with _ | ty
      · exact absurd (Or.inr hev) hcond
      · exact ⟨ty, rfl⟩
    rw [event_trace_known ifname event serialized policies applyResult ty hty] at hp
    cases serialized with
    | none => simp at hp
    | some ifnode =>
      cases hm : ni_policy_match_event policies (eventNode ty ifnode) with
      | none => simp [hm] at hp
      | some q =>
        by_cases ha : applyResult q ifnode < 0
        · simp [hm, ha] at hp
        · simp [hm, ha] at hp
          rw [hp, hfull]

/-- C6 amended witness: a matched-and-applied link-up event on `eth0` builds
exactly the path `/system/interface/eth0`. -/
theorem restpath_exact_short_names_witness :
    ("eth0" : String).length ≤ 237 ∧
    EventStep.buildRestPath "/system/interface/eth0" ∈
      wicked_interface_event "eth0" 2 (some (XmlNode.node "interface" [] []))
        [⟨fun _ => true, "accept"⟩] (fun _ _ => 0) ∧
    (∀ p, EventStep.buildRestPath p ∈
        wicked_interface_event "eth0" 2 (some (XmlNode.node "interface" [] []))
          [⟨fun _ => true, "accept"⟩] (fun _ _ => 0) →
      p = "/system/interface/" ++ "eth0") :=
  ⟨by decide, by decide,
   restpath_exact_short_names "eth0" 2 (some (XmlNode.node "interface" [] []))
     [⟨fun _ => true, "accept"⟩] (fun _ _ => 0) (by decide)⟩

/-- C10: the REST target path is written into a fixed 256-byte buffer with
`snprintf`, so every resulting path has at most 255 characters, and for
interface names longer than 237 characters the path is silently truncated:
it differs from the full `/system/interface/<interface-name>` string. -/
theorem restpath_bounded (ifname : String) :
    (restpath ifname).length ≤ 255 ∧
    (237 < ifname.length → restpath ifname ≠ "/system/interface/" ++ ifname) := by
  have hfull : ("/system/interface/" ++ ifname).data.length = 18 + ifname.length := by
    rw [String.data_append, List.length_append]
    rfl
  constructor
  · show (("/system/interface/" ++ ifname).data.take 255).length ≤ 255
    rw [List.length_take]
    exact Nat.min_le_left _ _
  · intro hlen heq
    have hl : (restpath ifname).length = min 255 (18 + ifname.length) := by
      show (("/system/interface/" ++ ifname).data.take 255).length = _
      rw [List.length_take, hfull]
    have hr : ("/system/interface/" ++ ifname).length = 18 + ifname.length := hfull
    have hcongr := congrArg String.length heq
    rw [hl, hr] at hcongr
    omega

set_option maxRecDepth 10000 in
/-- C10 witness: the 238-character name yields a 255-character truncated path
that differs from the untruncated string. -/
theorem restpath_bounded_witness :
    (restpath longName).length ≤ 255 ∧ 237 < longName.length ∧
    restpath longName ≠ "/system/interface/" ++ longName :=
  ⟨(restpath_bounded longName).1, by decide,
   (restpath_bounded longName).2 (by decide)⟩

end Wicked
